import Mathlib

/-!
Verification of the tandas daemon core (Go sources) against its
natural-language specification, by shallow embedding.

Conventions of the embedding:
- Go slices that may be `nil` are modelled as `Option (List _)`: `none` is a
  nil slice (serialized as JSON `null` or produced by a missing/`null` JSON
  field), `some l` is a non-nil slice (serialized as a JSON array).
- Go `float64` arithmetic on small integer counts is modelled over `ℚ`; the
  only operation performed is one division, so the rational value is the
  mathematical value the code computes.
- A line of the append-log file is modelled by its parse: `LogLine.record t`
  stands for a line that `json.Unmarshal` decodes into the record `t`
  (the JSON encoding of the record struct is injective), `LogLine.blank` for
  an empty line and `LogLine.malformed` for a line that fails to decode.
- The SQLite table `tandas` is modelled as a `List Row` whose order is the
  rowid (insertion) order; `ORDER BY updated_at DESC` is modelled by an
  insertion sort with the corresponding relation.
- Fallible external operations (file system, SQLite) are driven by explicit
  failure oracles where a claim depends on failure behaviour.
-/

namespace Tandas

/-! ## Data model (Go package db, file part_003) -/

/-- Go struct Note. -/
structure Note where
  ts : String
  type : String
  text : String
deriving DecidableEq

/-- Go struct RunResult; duration and trace are strings with omitempty,
their zero value is the empty string. -/
structure RunResult where
  ts : String
  result : String
  duration : String
  trace : String
deriving DecidableEq

/-- Go struct Tanda. Collection fields are `Option` so that a nil Go slice
(JSON null / absent field) is `none` and a present (possibly empty) JSON
array is `some`. -/
structure Tanda where
  id : String
  title : String
  status : String
  file : String
  covers : Option (List String)
  dependsOn : Option (List String)
  notes : Option (List Note)
  runHistory : Option (List RunResult)
  createdAt : String
  updatedAt : String
deriving DecidableEq

/-- Go calculateFlakiness: 0 on empty history, otherwise the number of
entries with result "fail" among the last 10 (or all, when fewer) entries,
divided by the size of that window. -/
def calculateFlakiness (history : List RunResult) : ℚ :=
  if history.length = 0 then 0
  else
    let window := if 10 < history.length then history.drop (history.length - 10) else history
    let failures := window.countP (fun run => run.result == "fail")
    (failures : ℚ) / (window.length : ℚ)

/-- One row of the SQLite table `tandas`. The collection columns store the
JSON text `json.Marshal` produced for the corresponding slice, so a nil
slice is the text "null", modelled as `none`. -/
structure Row where
  id : String
  title : String
  status : String
  file : String
  covers : Option (List String)
  dependsOn : Option (List String)
  notes : Option (List Note)
  runHistory : Option (List RunResult)
  flakiness : ℚ
  lastRunAt : String
  lastRunResult : String
  createdAt : String
  updatedAt : String
deriving DecidableEq

/-- The column values UpsertTanda computes for a record: all logical fields
copied from the record, derived columns recomputed from its run history
(a nil history behaves as the empty one: its length is 0). -/
def toRowNew (t : Tanda) : Row :=
  let hist := t.runHistory.getD []
  { id := t.id
    title := t.title
    status := t.status
    file := t.file
    covers := t.covers
    dependsOn := t.dependsOn
    notes := t.notes
    runHistory := t.runHistory
    flakiness := calculateFlakiness hist
    lastRunAt := ((hist.getLast?).map RunResult.ts).getD ""
    lastRunResult := ((hist.getLast?).map RunResult.result).getD ""
    createdAt := t.createdAt
    updatedAt := t.updatedAt }

/-- Go UpsertTanda: INSERT ... ON CONFLICT(id) DO UPDATE SET every column
except id and created_at. On conflict the existing row keeps its rowid
(its position) and its created_at; otherwise a new row is appended. -/
def upsertTanda (rows : List Row) (t : Tanda) : List Row :=
  if rows.any (fun r => r.id == t.id) then
    rows.map (fun r => if r.id == t.id then { toRowNew t with createdAt := r.createdAt } else r)
  else
    rows ++ [toRowNew t]

/-- The record GetAllTandas reconstructs from one row: logical columns read
back, nil collections normalized to empty (never absent). -/
def rowToTanda (r : Row) : Tanda :=
  { id := r.id
    title := r.title
    status := r.status
    file := r.file
    covers := some (r.covers.getD [])
    dependsOn := some (r.dependsOn.getD [])
    notes := some (r.notes.getD [])
    runHistory := some (r.runHistory.getD [])
    createdAt := r.createdAt
    updatedAt := r.updatedAt }

/-- Go GetAllTandas: every row, ORDER BY updated_at DESC, each row read
back with nil collections normalized to empty. -/
def getAllTandas (rows : List Row) : List Tanda :=
  (List.insertionSort (fun a b => b.updatedAt ≤ a.updatedAt) rows).map rowToTanda

/-- Go ClearAll: DELETE FROM tandas. -/
def clearAll : List Row := []

/-- Go DeleteTanda: DELETE FROM tandas WHERE id = ?. -/
def deleteTanda (rows : List Row) (id : String) : List Row :=
  rows.filter (fun r => !(r.id == id))

/-- Projection of a row onto the ten logical record fields (the columns
GetAllTandas selects), without the per-row normalization. -/
def rowFields (r : Row) : Tanda :=
  { id := r.id
    title := r.title
    status := r.status
    file := r.file
    covers := r.covers
    dependsOn := r.dependsOn
    notes := r.notes
    runHistory := r.runHistory
    createdAt := r.createdAt
    updatedAt := r.updatedAt }

/-- True when none of the four collection columns of a row is null. -/
def collectionsPresent (r : Row) : Bool :=
  r.covers.isSome && r.dependsOn.isSome && r.notes.isSome && r.runHistory.isSome

/-! ## Claim C4: flakiness score -/

/-- A failing run and a passing run, for concrete instances. -/
def failRun : RunResult := { ts := "t", result := "fail", duration := "", trace := "" }

def passRun : RunResult := { ts := "t", result := "pass", duration := "", trace := "" }

/-- Claim C4: for every run history the flakiness score equals the number of
failing entries divided by the window size, the window being the most recent
min(10, length) entries; an empty history yields 0 (the formula also yields
0 there since the rational quotient by 0 is 0); in particular 10 entries
with 4 failures yield 4/10, 11 entries are scored over only the most recent
10, and 3 entries with 1 failure yield 1/3. -/
theorem C4_flakiness_score (h : List RunResult) :
    calculateFlakiness h =
      (((h.drop (h.length - min 10 h.length)).countP (fun run => run.result == "fail") : ℚ) /
        ((min 10 h.length : ℕ) : ℚ))
    ∧ calculateFlakiness [] = 0
    ∧ calculateFlakiness
        [failRun, failRun, failRun, failRun, passRun, passRun, passRun, passRun, passRun,
          passRun] = 4 / 10
    ∧ calculateFlakiness
        [failRun, passRun, passRun, passRun, passRun, passRun, passRun, passRun, passRun,
          passRun, passRun] = 0
    ∧ calculateFlakiness [passRun, passRun, failRun] = 1 / 3 := by
  have c10 : List.countP (fun run => run.result == "fail")
      [failRun, failRun, failRun, failRun, passRun, passRun, passRun, passRun, passRun,
        passRun] = 4 := by decide
  have c11 : List.countP (fun run => run.result == "fail")
      (List.drop 1
        [failRun, passRun, passRun, passRun, passRun, passRun, passRun, passRun, passRun,
          passRun, passRun]) = 0 := by decide
  have c3 : List.countP (fun run => run.result == "fail") [passRun, passRun, failRun] = 1 := by
    decide
  have hp : ¬passRun.result = "fail" := by decide
  refine ⟨?_, by norm_num [calculateFlakiness], by norm_num [calculateFlakiness, c10],
    by norm_num [calculateFlakiness, c11, hp], by norm_num [calculateFlakiness, c3]⟩
  by_cases hnil : h.length = 0
  · rw [List.length_eq_zero] at hnil
    subst hnil
    simp [calculateFlakiness]
  · by_cases hlen : 10 < h.length
    · have hmin : min 10 h.length = 10 := Nat.min_eq_left (Nat.le_of_lt hlen)
      have hdlen : (h.drop (h.length - 10)).length = 10 := by
        rw [List.length_drop]
        omega
      simp only [calculateFlakiness, if_neg hnil, if_pos hlen, hmin, hdlen]
    · have hmin : min 10 h.length = h.length := Nat.min_eq_right (Nat.le_of_not_lt hlen)
      simp only [calculateFlakiness, if_neg hnil, if_neg hlen, hmin, Nat.sub_self,
        List.drop_zero]

/-! ## Synchronizer (Go package sync, file part_002) -/

/-- One line of the append-log file, modelled by its parse (see file
header): a blank line, a line that fails to unmarshal, or a line that
unmarshals into a record. -/
inductive LogLine where
  | blank
  | malformed
  | record (t : Tanda)
deriving DecidableEq

/-- The nil-to-empty normalization ImportFromJSONL applies to a parsed
record before upserting it. -/
def normalizeTanda (t : Tanda) : Tanda :=
  { t with
    covers := some (t.covers.getD [])
    dependsOn := some (t.dependsOn.getD [])
    notes := some (t.notes.getD [])
    runHistory := some (t.runHistory.getD []) }

/-- The body of the ImportFromJSONL scan loop, acting on (rows so far,
warnings so far): blank lines are skipped, a line that fails to parse adds
one warning and is skipped, a parsed record is normalized and upserted.
(The pure model of upsertTanda is total, so the per-record upsert-failure
warning path is unreachable here.) -/
def importStep (acc : List Row × ℕ) (line : LogLine) : List Row × ℕ :=
  match line with
  | .blank => acc
  | .malformed => (acc.1, acc.2 + 1)
  | .record t => (upsertTanda acc.1 (normalizeTanda t), acc.2)

/-- Go ImportFromJSONL: a missing log file is a successful no-op; otherwise
the store is cleared and the lines are scanned with importStep. Returns the
resulting rows and the number of parse warnings. -/
def importFromJSONL (rows : List Row) (file : Option (List LogLine)) : List Row × ℕ :=
  match file with
  | none => (rows, 0)
  | some lines => lines.foldl importStep (clearAll, 0)

/-- The records of the well-formed lines of a log, in line order. -/
def wellFormedRecords (lines : List LogLine) : List Tanda :=
  lines.filterMap fun l =>
    match l with
    | .record t => some t
    | _ => none

/-- The number of lines of a log that fail to parse. -/
def malformedCount (lines : List LogLine) : ℕ :=
  lines.countP fun l =>
    match l with
    | .malformed => true
    | _ => false

/-- The log lines ExportToJSONL writes: one marshalled line per record
returned by GetAllTandas, in that order. -/
def exportLines (rows : List Row) : List LogLine :=
  (getAllTandas rows).map LogLine.record

/-- The stages of ExportToJSONL at which an external failure can occur,
in program order; the per-record stages carry the loop index. -/
inductive ExportStage where
  | getAll
  | createTemp
  | marshal (i : ℕ)
  | write (i : ℕ)
  | newline (i : ℕ)
  | flush
  | closeTemp
  | rename
deriving DecidableEq

/-- The per-record loop of ExportToJSONL under a failure oracle: marshal,
write, write newline for each record; the first injected failure aborts
with the corresponding error. -/
def exportLoop (fail : ExportStage → Bool) : List Tanda → ℕ → Option String
  | [], _ => none
  | _ :: ts, i =>
    if fail (.marshal i) then some "failed to marshal tanda"
    else if fail (.write i) then some "failed to write tanda"
    else if fail (.newline i) then some "failed to write newline"
    else exportLoop fail ts (i + 1)

/-- The files ExportToJSONL can touch: the destination log file and the
temporary file of this invocation (none = absent). -/
structure FS where
  dest : Option (List LogLine)
  temp : Option (List LogLine)
deriving DecidableEq

/-- Go ExportToJSONL under a failure oracle, starting from a destination
state with no leftover temporary file. Mirrors the code stage by stage:
read all records; create the temp file; marshal and write each record; on
any failure close and remove the temp file and return the error, leaving
the destination untouched; flush, close, and atomically rename the temp
file over the destination. -/
def exportToJSONL (fail : ExportStage → Bool) (rows : List Row)
    (dest : Option (List LogLine)) : Option String × FS :=
  if fail .getAll then (some "failed to get tandas", ⟨dest, none⟩)
  else if fail .createTemp then (some "failed to create temp file", ⟨dest, none⟩)
  else
    match exportLoop fail (getAllTandas rows) 0 with
    | some e => (some e, ⟨dest, none⟩)
    | none =>
      if fail .flush then (some "failed to flush", ⟨dest, none⟩)
      else if fail .closeTemp then (some "failed to close temp file", ⟨dest, none⟩)
      else if fail .rename then (some "failed to rename", ⟨dest, none⟩)
      else (none, ⟨some (exportLines rows), none⟩)

/-! ## Helper lemmas -/

lemma toRowNew_id (t : Tanda) : (toRowNew t).id = t.id := rfl

lemma normalizeTanda_id (t : Tanda) : (normalizeTanda t).id = t.id := rfl

lemma rowFields_toRowNew (t : Tanda) : rowFields (toRowNew t) = t := rfl

lemma normalizeTanda_rowToTanda (r : Row) : normalizeTanda (rowToTanda r) = rowToTanda r := rfl

lemma collectionsPresent_toRowNew_normalize (t : Tanda) :
    collectionsPresent (toRowNew (normalizeTanda t)) = true := rfl

lemma upsertTanda_fresh (rows : List Row) (t : Tanda) (h : ∀ r ∈ rows, r.id ≠ t.id) :
    upsertTanda rows t = rows ++ [toRowNew t] := by
  have hany : rows.any (fun r => r.id == t.id) = false := by
    rw [List.any_eq_false]
    intro r hr
    simpa using h r hr
  simp [upsertTanda, hany]

lemma wellFormedRecords_map_record (ts : List Tanda) :
    wellFormedRecords (ts.map LogLine.record) = ts := by
  induction ts with
  | nil => rfl
  | cons t ts ih => simpa [wellFormedRecords] using ih

lemma malformedCount_map_record (ts : List Tanda) :
    malformedCount (ts.map LogLine.record) = 0 := by
  induction ts with
  | nil => rfl
  | cons t ts _ih => simp [malformedCount]

/-- Unrolling the import scan: starting from any accumulator whose rows are
disjoint (by id) from the records of the remaining lines, and with those
records carrying pairwise distinct ids, the scan appends one normalized row
per well-formed line and adds one warning per malformed line. -/
lemma importStep_foldl (lines : List LogLine) :
    ∀ (acc : List Row) (w : ℕ),
      (∀ t ∈ wellFormedRecords lines, ∀ r ∈ acc, r.id ≠ t.id) →
      ((wellFormedRecords lines).map Tanda.id).Nodup →
      lines.foldl importStep (acc, w) =
        (acc ++ (wellFormedRecords lines).map (fun t => toRowNew (normalizeTanda t)),
          w + malformedCount lines) := by
  induction lines with
  | nil => intro acc w _ _; simp [wellFormedRecords, malformedCount]
  | cons l ls ih =>
    intro acc w hfresh hnodup
    cases l with
    | blank =>
      have hwf : wellFormedRecords (LogLine.blank :: ls) = wellFormedRecords ls := by
        simp [wellFormedRecords]
      rw [List.foldl_cons]
      show ls.foldl importStep (acc, w) = _
      rw [ih acc w (by rw [hwf] at hfresh; exact hfresh) (by rw [hwf] at hnodup; exact hnodup)]
      rw [hwf]
      simp [malformedCount]
    | malformed =>
      have hwf : wellFormedRecords (LogLine.malformed :: ls) = wellFormedRecords ls := by
        simp [wellFormedRecords]
      rw [List.foldl_cons]
      show ls.foldl importStep (acc, w + 1) = _
      rw [ih acc (w + 1) (by rw [hwf] at hfresh; exact hfresh)
        (by rw [hwf] at hnodup; exact hnodup)]
      rw [hwf]
      simp [malformedCount]
      omega
    | record t =>
      have hwf : wellFormedRecords (LogLine.record t :: ls) = t :: wellFormedRecords ls := by
        simp [wellFormedRecords]
      have hmem : t ∈ wellFormedRecords (LogLine.record t :: ls) := by
        rw [hwf]; exact List.mem_cons_self t _
      have hup : upsertTanda acc (normalizeTanda t) = acc ++ [toRowNew (normalizeTanda t)] := by
        apply upsertTanda_fresh
        intro r hr
        rw [normalizeTanda_id]
        exact hfresh t hmem r hr
      rw [List.foldl_cons]
      show ls.foldl importStep (upsertTanda acc (normalizeTanda t), w) = _
      rw [hup]
      have hnodup2 : ((wellFormedRecords ls).map Tanda.id).Nodup := by
        rw [hwf] at hnodup
        exact (List.nodup_cons.mp hnodup).2
      have hnotmem : t.id ∉ (wellFormedRecords ls).map Tanda.id := by
        rw [hwf] at hnodup
        exact (List.nodup_cons.mp hnodup).1
      have hfresh2 : ∀ u ∈ wellFormedRecords ls,
          ∀ r ∈ acc ++ [toRowNew (normalizeTanda t)], r.id ≠ u.id := by
        intro u hu r hr
        rcases List.mem_append.mp hr with hra | hrb
        · exact hfresh u (by rw [hwf]; exact List.mem_cons_of_mem _ hu) r hra
        · have : r = toRowNew (normalizeTanda t) := List.mem_singleton.mp hrb
          subst this
          rw [toRowNew_id, normalizeTanda_id]
          intro hcontra
          exact hnotmem (hcontra ▸ List.mem_map_of_mem Tanda.id hu)
      rw [ih _ w hfresh2 hnodup2]
      rw [hwf]
      simp [malformedCount, List.append_assoc]

/-! ## Claim C2: export atomicity -/

/-- Claim C2: for every failure oracle, starting from any destination
contents, ExportToJSONL leaves no temporary file behind and leaves the
destination holding exactly the new complete contents when it succeeds and
exactly the old contents when any stage fails; the destination is only ever
replaced whole (by the final rename). -/
theorem C2_export_atomicity (fail : ExportStage → Bool) (rows : List Row)
    (dest : Option (List LogLine)) :
    (exportToJSONL fail rows dest).2 =
      ⟨if (exportToJSONL fail rows dest).1 = none then some (exportLines rows) else dest,
        none⟩ := by
  unfold exportToJSONL
  by_cases h1 : fail ExportStage.getAll
  · simp [h1]
  · by_cases h2 : fail ExportStage.createTemp
    · simp [h1, h2]
    · cases hl : exportLoop fail (getAllTandas rows) 0 with
      | some e => simp [h1, h2, hl]
      | none =>
        by_cases h3 : fail ExportStage.flush
        · simp [h1, h2, hl, h3]
        · by_cases h4 : fail ExportStage.closeTemp
          · simp [h1, h2, hl, h3, h4]
          · by_cases h5 : fail ExportStage.rename
            · simp [h1, h2, hl, h3, h4, h5]
            · simp [h1, h2, hl, h3, h4, h5]

/-! ## Claim C3: malformed-line tolerance -/

/-- Claim C3 (amended): for every log whose well-formed records carry
pairwise distinct ids, importing it from any starting store clears the
store, skips every blank and malformed line, and leaves exactly the
well-formed records (normalized and upserted in line order), with one
warning per malformed line. Without the distinct-id condition the claim
fails: see the counterexample, where a later record with the same id
overwrites an earlier one. -/
theorem C3_malformed_tolerance (lines : List LogLine) (rows0 : List Row)
    (h : ((wellFormedRecords lines).map Tanda.id).Nodup) :
    importFromJSONL rows0 (some lines) =
      ((wellFormedRecords lines).map (fun t => toRowNew (normalizeTanda t)),
        malformedCount lines) := by
  show lines.foldl importStep (clearAll, 0) = _
  rw [importStep_foldl lines clearAll 0 (by intro t _ r hr; simp [clearAll] at hr) h]
  simp [clearAll]

/-- A concrete record for counterexamples and witnesses. -/
def tandaA : Tanda :=
  { id := "td-a", title := "Login", status := "active", file := "", covers := none,
    dependsOn := some [], notes := none, runHistory := none,
    createdAt := "2024-01-01T00:00:00Z", updatedAt := "2024-01-02T00:00:00Z" }

/-- A second concrete record, with a different id and non-empty collections. -/
def tandaB : Tanda :=
  { id := "td-b", title := "Checkout", status := "flaky", file := "tests/checkout.spec.ts",
    covers := some ["cart"], dependsOn := some ["td-a"], notes := none,
    runHistory := some [failRun, passRun],
    createdAt := "2024-02-01T00:00:00Z", updatedAt := "2024-02-02T00:00:00Z" }

/-- A log whose two well-formed lines share the id "td-a". -/
def dupIdLines : List LogLine :=
  [LogLine.record tandaA, LogLine.record { tandaA with title := "Login again" }]

/-- Counterexample to claim C3 as stated: this log contains N = 2 lines
that parse as well-formed records, yet after import the store holds only 1
record, because the second upsert overwrites the first (same id). -/
theorem C3_duplicate_ids_cex :
    (wellFormedRecords dupIdLines).length = 2
    ∧ ((importFromJSONL [] (some dupIdLines)).1).length = 1 := by
  constructor
  · decide
  · decide

/-- A log mixing blank, malformed and two well-formed lines. -/
def mixedLines : List LogLine :=
  [LogLine.blank, LogLine.record tandaA, LogLine.malformed, LogLine.record tandaB,
    LogLine.blank]

theorem C3_malformed_tolerance_witness :
    ((wellFormedRecords mixedLines).map Tanda.id).Nodup
    ∧ importFromJSONL [] (some mixedLines) =
        ((wellFormedRecords mixedLines).map (fun t => toRowNew (normalizeTanda t)),
          malformedCount mixedLines) :=
  ⟨by decide, C3_malformed_tolerance mixedLines [] (by decide)⟩

/-! ## Claim C1: export/import round trip -/

/-- Claim C1: for every store state (whose rows carry distinct ids, the
primary-key invariant of the table), exporting to the log and importing the
log back leaves the store holding an equivalent record set: the logical
fields of the resulting rows are a permutation of the original records with
their null collections normalized to empty, and every collection column of
the resulting store is present (never null). -/
theorem C1_export_import_roundtrip (rows : List Row) (h : (rows.map Row.id).Nodup) :
    ((importFromJSONL rows (some (exportLines rows))).1.map rowFields).Perm
        (rows.map rowToTanda)
    ∧ ((importFromJSONL rows (some (exportLines rows))).1.all collectionsPresent) = true := by
  have hperm : (List.insertionSort (fun a b => b.updatedAt ≤ a.updatedAt) rows).Perm rows :=
    List.perm_insertionSort _ rows
  have hids : (getAllTandas rows).map Tanda.id =
      (List.insertionSort (fun a b => b.updatedAt ≤ a.updatedAt) rows).map Row.id := by
    rw [getAllTandas, List.map_map]
    rfl
  have hnodup : ((getAllTandas rows).map Tanda.id).Nodup := by
    rw [hids]
    exact ((hperm.map Row.id).nodup_iff).mpr h
  have hwf : wellFormedRecords (exportLines rows) = getAllTandas rows :=
    wellFormedRecords_map_record (getAllTandas rows)
  have himp : importFromJSONL rows (some (exportLines rows)) =
      ((getAllTandas rows).map (fun t => toRowNew (normalizeTanda t)), 0) := by
    show (exportLines rows).foldl importStep (clearAll, 0) = _
    rw [importStep_foldl (exportLines rows) clearAll 0
      (by intro t _ r hr; simp [clearAll] at hr) (by rw [hwf]; exact hnodup)]
    rw [hwf]
    simp [clearAll, malformedCount_map_record, exportLines]
  constructor
  · rw [himp]
    show (((getAllTandas rows).map fun t => toRowNew (normalizeTanda t)).map rowFields).Perm _
    rw [List.map_map]
    show ((getAllTandas rows).map normalizeTanda).Perm _
    rw [getAllTandas, List.map_map]
    show ((List.insertionSort (fun a b => b.updatedAt ≤ a.updatedAt) rows).map
      rowToTanda).Perm _
    exact hperm.map rowToTanda
  · rw [himp]
    rw [List.all_eq_true]
    intro r hr
    rw [List.mem_map] at hr
    obtain ⟨t, _, rfl⟩ := hr
    exact collectionsPresent_toRowNew_normalize t

/-- A concrete store row with a null covers column. -/
def rowOne : Row :=
  { id := "td-1", title := "One", status := "active", file := "", covers := none,
    dependsOn := some [], notes := none, runHistory := none, flakiness := 0,
    lastRunAt := "", lastRunResult := "", createdAt := "2024-01-01T00:00:00Z",
    updatedAt := "2024-03-01T00:00:00Z" }

/-- A second concrete store row with populated collections. -/
def rowTwo : Row :=
  { id := "td-2", title := "Two", status := "flaky", file := "tests/two.spec.ts",
    covers := some ["auth"], dependsOn := some ["td-1"],
    notes := some [{ ts := "n", type := "human", text := "note" }],
    runHistory := some [passRun, failRun], flakiness := 1 / 2, lastRunAt := "t",
    lastRunResult := "fail", createdAt := "2024-01-05T00:00:00Z",
    updatedAt := "2024-02-01T00:00:00Z" }

theorem C1_export_import_roundtrip_witness :
    (([rowOne, rowTwo].map Row.id).Nodup)
    ∧ (((importFromJSONL [rowOne, rowTwo] (some (exportLines [rowOne, rowTwo]))).1.map
          rowFields).Perm ([rowOne, rowTwo].map rowToTanda)
        ∧ ((importFromJSONL [rowOne, rowTwo]
              (some (exportLines [rowOne, rowTwo]))).1.all collectionsPresent) = true) :=
  ⟨by decide, C1_export_import_roundtrip [rowOne, rowTwo] (by decide)⟩

/-! ## Claim C5: collections are never null through the public interface -/

lemma collectionsPresent_upsert (rows : List Row) (t : Tanda)
    (hrows : rows.all collectionsPresent = true)
    (ht : collectionsPresent (toRowNew t) = true) :
    (upsertTanda rows t).all collectionsPresent = true := by
  unfold upsertTanda
  split
  · rw [List.all_eq_true] at hrows ⊢
    intro x hx
    rw [List.mem_map] at hx
    obtain ⟨r, hr, rfl⟩ := hx
    by_cases hid : (r.id == t.id) = true
    · simp only [hid, if_true]
      exact ht
    · simp only [hid, if_false, Bool.false_eq_true]
      exact hrows r hr
  · rw [List.all_append]
    simp [hrows, ht]

lemma import_fold_all_present (lines : List LogLine) :
    ∀ acc : List Row × ℕ, acc.1.all collectionsPresent = true →
      ((lines.foldl importStep acc).1).all collectionsPresent = true := by
  induction lines with
  | nil => intro acc h; exact h
  | cons l ls ih =>
    intro acc h
    rw [List.foldl_cons]
    cases l with
    | blank => exact ih acc h
    | malformed => exact ih (acc.1, acc.2 + 1) h
    | record t => exact ih _ (collectionsPresent_upsert acc.1 (normalizeTanda t) h
        (collectionsPresent_toRowNew_normalize t))

/-- Claim C5: after any import of a log file every row of the store has all
four collection columns present (the store was cleared and every upserted
record was normalized first), and every record GetAllTandas returns has all
four collection fields present as (possibly empty) lists, never absent. -/
theorem C5_collections_never_null (rows : List Row) (lines : List LogLine) :
    ((importFromJSONL rows (some lines)).1).all collectionsPresent = true
    ∧ ((getAllTandas rows).all fun t =>
        t.covers.isSome && t.dependsOn.isSome && t.notes.isSome && t.runHistory.isSome) =
      true := by
  constructor
  · exact import_fold_all_present lines (clearAll, 0) rfl
  · rw [getAllTandas, List.all_eq_true]
    intro t ht
    rw [List.mem_map] at ht
    obtain ⟨r, _, rfl⟩ := ht
    rfl

/-! ## Claim C8: upsert overwrites every field except created_at -/

/-- The created_at column the row with id t.id holds after UpsertTanda:
the previously stored value when the id already existed (the ON CONFLICT
update does not set created_at), the incoming record value otherwise. -/
def storedCreatedAt (rows : List Row) (t : Tanda) : String :=
  match rows.find? (fun r => r.id == t.id) with
  | some old => old.createdAt
  | none => t.createdAt

lemma upsertTanda_cons_ne (r : Row) (rows : List Row) (t : Tanda)
    (h : (r.id == t.id) = false) :
    upsertTanda (r :: rows) t = r :: upsertTanda rows t := by
  unfold upsertTanda
  simp only [List.any_cons, h, Bool.false_or]
  by_cases hany : (rows.any fun x => x.id == t.id) = true
  · rw [if_pos hany, if_pos hany, List.map_cons, if_neg (by simp [h])]
  · rw [if_neg hany, if_neg hany, List.cons_append]

/-- Claim C8 (amended): after UpsertTanda the stored row with the record's
id carries exactly the record's title, status, file, covers, depends_on,
notes, run_history and updated_at, with the derived columns recomputed from
its run history — every column of toRowNew — except created_at, which keeps
the previously stored value when the id already existed (it is set only at
creation; the ON CONFLICT clause does not update it). -/
theorem C8_upsert_overwrites (rows : List Row) (t : Tanda) :
    (upsertTanda rows t).find? (fun r => r.id == t.id) =
      some { toRowNew t with createdAt := storedCreatedAt rows t } := by
  induction rows with
  | nil =>
    have hup : upsertTanda [] t = [toRowNew t] := by simp [upsertTanda]
    rw [hup]
    rw [List.find?_cons_of_pos (p := fun (r : Row) => r.id == t.id) []
      (by show ((toRowNew t).id == t.id) = true; rw [toRowNew_id]; exact beq_self_eq_true t.id)]
    rfl
  | cons r rows ih =>
    by_cases hid : (r.id == t.id) = true
    · have hany : ((r :: rows).any fun x => x.id == t.id) = true := by
        rw [List.any_cons, hid, Bool.true_or]
      unfold upsertTanda
      rw [if_pos hany, List.map_cons, if_pos hid]
      rw [List.find?_cons_of_pos (p := fun (r : Row) => r.id == t.id) _
        (beq_self_eq_true t.id : (({ toRowNew t with createdAt := r.createdAt } : Row).id ==
          t.id) = true)]
      have hstor : storedCreatedAt (r :: rows) t = r.createdAt := by
        unfold storedCreatedAt
        rw [List.find?_cons_of_pos (p := fun (r : Row) => r.id == t.id) _ hid]
      rw [hstor]
    · have hid2 : (r.id == t.id) = false := by
        cases hb : (r.id == t.id) with
        | true => exact absurd hb hid
        | false => rfl
      rw [upsertTanda_cons_ne r rows t hid2]
      rw [List.find?_cons_of_neg (p := fun (r : Row) => r.id == t.id) _
        (by show ¬(r.id == t.id) = true; rw [hid2]; decide)]
      rw [ih]
      have hstor : storedCreatedAt (r :: rows) t = storedCreatedAt rows t := by
        unfold storedCreatedAt
        rw [List.find?_cons_of_neg (p := fun (r : Row) => r.id == t.id) _
          (by show ¬(r.id == t.id) = true; rw [hid2]; decide)]
      rw [hstor]

/-- An existing stored row for the C8 counterexample. -/
def oldRow : Row :=
  { id := "td-8", title := "Old", status := "active", file := "", covers := some [],
    dependsOn := some [], notes := some [], runHistory := some [], flakiness := 0,
    lastRunAt := "", lastRunResult := "", createdAt := "2020-01-01T00:00:00Z",
    updatedAt := "2020-01-01T00:00:00Z" }

/-- An incoming record with the same id but a different created_at. -/
def newTanda : Tanda :=
  { id := "td-8", title := "New", status := "active", file := "", covers := some [],
    dependsOn := some [], notes := some [], runHistory := some [],
    createdAt := "2021-06-01T00:00:00Z", updatedAt := "2021-06-02T00:00:00Z" }

/-- Counterexample to claim C8 as stated: upserting a record whose id
already exists does not overwrite created_at — the stored row keeps the old
value, which differs from the incoming record's value. -/
theorem C8_created_at_cex :
    (upsertTanda [oldRow] newTanda).map Row.createdAt = ["2020-01-01T00:00:00Z"]
    ∧ newTanda.createdAt = "2021-06-01T00:00:00Z"
    ∧ ¬("2020-01-01T00:00:00Z" = "2021-06-01T00:00:00Z") := by
  refine ⟨by decide, rfl, by decide⟩

/-! ## Request server (Go package rpc, file server.go) -/

/-- Go RPCRequest: method name and caller-chosen integer id (params are
opaque and unused by dispatch). -/
structure RPCRequest where
  method : String
  id : Int
deriving DecidableEq

/-- The result values handleRequest can produce: a literal string, or the
status object with running flag, process pid and configured interval. -/
inductive RPCValue where
  | str (s : String)
  | statusInfo (running : Bool) (pid : ℕ) (interval : String)
deriving DecidableEq

/-- Go RPCResponse: result (none when absent), error (empty string when
absent — omitempty), echoed id. -/
structure RPCResponse where
  result : Option RPCValue
  error : String
  id : Int
deriving DecidableEq

/-- The daemon state handleRequest reads: the process pid, the configured
interval string, and oracles for the outcome of the syncer calls the sync
and import methods make (none = success, some e = the error message). -/
structure DaemonCfg where
  pid : ℕ
  interval : String
  exportErr : Option String
  importErr : Option String
deriving DecidableEq

/-- Go handleRequest: the switch over the method name. -/
def handleRequest (d : DaemonCfg) (req : RPCRequest) : RPCResponse :=
  if req.method = "ping" then { result := some (.str "pong"), error := "", id := req.id }
  else if req.method = "sync" then
    match d.exportErr with
    | some e => { result := none, error := e, id := req.id }
    | none => { result := some (.str "synced"), error := "", id := req.id }
  else if req.method = "import" then
    match d.importErr with
    | some e => { result := none, error := e, id := req.id }
    | none => { result := some (.str "imported"), error := "", id := req.id }
  else if req.method = "status" then
    { result := some (.statusInfo true d.pid d.interval), error := "", id := req.id }
  else { result := none, error := "unknown method: " ++ req.method, id := req.id }

/-- Go handleConnection: decode a stream of requests (none = decode error
or EOF, which ends this connection only), answering each request with one
response and continuing with the rest of the stream. -/
def handleConnection (d : DaemonCfg) : List (Option RPCRequest) → List RPCResponse
  | [] => []
  | none :: _ => []
  | some req :: rest => handleRequest d req :: handleConnection d rest

lemma unknown_method_msg_ne_empty (m : String) : "unknown method: " ++ m ≠ "" := by
  intro hc
  have hlen := congrArg String.length hc
  rw [String.length_append] at hlen
  have h16 : ("unknown method: " : String).length = 16 := by decide
  have h0 : ("" : String).length = 0 := by decide
  rw [h16, h0] at hlen
  omega

/-- Claim C6: every response echoes the request id; ping yields result
"pong" with empty error; status yields running=true with the process pid
and the configured interval; a request whose method is none of
ping/sync/import/status yields a non-empty error naming the method; and the
connection goes on to serve the rest of the stream after any answered
request. -/
theorem C6_rpc_dispatch (d : DaemonCfg) (req : RPCRequest) (rest : List (Option RPCRequest))
    (hunk : req.method ∉ (["ping", "sync", "import", "status"] : List String)) :
    (∀ q : RPCRequest, (handleRequest d q).id = q.id)
    ∧ (∀ i : Int, handleRequest d { method := "ping", id := i } =
        { result := some (.str "pong"), error := "", id := i })
    ∧ (∀ i : Int, handleRequest d { method := "status", id := i } =
        { result := some (.statusInfo true d.pid d.interval), error := "", id := i })
    ∧ (handleRequest d req).error = "unknown method: " ++ req.method
    ∧ (handleRequest d req).error ≠ ""
    ∧ handleConnection d (some req :: rest) = handleRequest d req :: handleConnection d rest := by
  simp only [List.mem_cons, List.mem_singleton, not_or] at hunk
  obtain ⟨h1, h2, h3, h4⟩ := hunk
  have hreq : handleRequest d req =
      { result := none, error := "unknown method: " ++ req.method, id := req.id } := by
    simp [handleRequest, h1, h2, h3, h4]
  refine ⟨?_, ?_, ?_, by rw [hreq], by rw [hreq]; exact unknown_method_msg_ne_empty req.method,
    rfl⟩
  · intro q
    unfold handleRequest
    split
    · rfl
    · split
      · cases d.exportErr <;> simp
      · split
        · cases d.importErr <;> simp
        · split <;> rfl
  · intro i
    rfl
  · intro i
    simp [handleRequest]

theorem C6_rpc_dispatch_witness :
    (({ method := "bogus", id := 1 } : RPCRequest).method ∉
        (["ping", "sync", "import", "status"] : List String))
    ∧ ((∀ q : RPCRequest,
          (handleRequest ⟨42, "5s", none, none⟩ q).id = q.id)
        ∧ (∀ i : Int, handleRequest ⟨42, "5s", none, none⟩ { method := "ping", id := i } =
            { result := some (.str "pong"), error := "", id := i })
        ∧ (∀ i : Int, handleRequest ⟨42, "5s", none, none⟩ { method := "status", id := i } =
            { result := some (.statusInfo true 42 "5s"), error := "", id := i })
        ∧ (handleRequest ⟨42, "5s", none, none⟩ { method := "bogus", id := 1 }).error =
            "unknown method: " ++ ({ method := "bogus", id := 1 } : RPCRequest).method
        ∧ (handleRequest ⟨42, "5s", none, none⟩ { method := "bogus", id := 1 }).error ≠ ""
        ∧ handleConnection ⟨42, "5s", none, none⟩
              (some { method := "bogus", id := 1 } :: [some { method := "ping", id := 2 }]) =
            handleRequest ⟨42, "5s", none, none⟩ { method := "bogus", id := 1 } ::
              handleConnection ⟨42, "5s", none, none⟩ [some { method := "ping", id := 2 }]) :=
  ⟨by decide,
    C6_rpc_dispatch ⟨42, "5s", none, none⟩ { method := "bogus", id := 1 }
      [some { method := "ping", id := 2 }] (by decide)⟩

/-! ## Daemon lifecycle (Go package rpc, file server.go) -/

/-- The environment StartDaemon runs against: whether the interval string
parses, whether the socket path already exists, and oracles for the
fallible steps that follow the singleton check. -/
structure StartEnv where
  intervalValid : Bool
  socketExists : Bool
  storeOpenOk : Bool
  listenOk : Bool
  pidWriteOk : Bool
  lockWriteOk : Bool
deriving DecidableEq

/-- The filesystem-visible effects of StartDaemon, in the order the code
performs them. -/
inductive FsEffect where
  | openStore
  | initialImport
  | bindSocket
  | writePidFile
  | writeLockFile
  | removePidFile
  | closeListener
  | closeStore
deriving DecidableEq

/-- Go StartDaemon up to entering its serve loops: parse the interval;
refuse to start when the socket path already exists; open the store; run
one best-effort import (failures are only warnings); bind the socket;
write the PID marker; write the lock marker — each later failure undoing,
in code order, what was already acquired. Returns the outcome and the list
of filesystem effects performed. -/
def startDaemon (env : StartEnv) (dir : String) : Except String Unit × List FsEffect :=
  if env.intervalValid = false then (.error "invalid interval", [])
  else if env.socketExists = true then
    (.error ("daemon already running (socket exists: " ++ dir ++ "/td.sock)"), [])
  else if env.storeOpenOk = false then (.error "failed to open database", [])
  else if env.listenOk = false then
    (.error "failed to create socket", [.openStore, .initialImport, .closeStore])
  else if env.pidWriteOk = false then
    (.error "failed to write PID file",
      [.openStore, .initialImport, .bindSocket, .closeListener, .closeStore])
  else if env.lockWriteOk = false then
    (.error "failed to write lock file",
      [.openStore, .initialImport, .bindSocket, .writePidFile, .removePidFile, .closeListener,
        .closeStore])
  else (.ok (), [.openStore, .initialImport, .bindSocket, .writePidFile, .writeLockFile])

/-- Claim C7 (amended): for every startup attempt whose interval string
parses, against a directory whose socket path already exists, StartDaemon
fails with the "daemon already running" error and performs no filesystem
effect at all. (When the interval string does not parse the attempt still
performs no effect, but fails earlier with an interval-parse error: see the
counterexample.) -/
theorem C7_singleton_refusal (env : StartEnv) (dir : String)
    (hv : env.intervalValid = true) (hs : env.socketExists = true) :
    startDaemon env dir =
      (.error ("daemon already running (socket exists: " ++ dir ++ "/td.sock)"), []) := by
  unfold startDaemon
  rw [hv, hs]
  simp

/-- An environment with an existing socket but an unparsable interval. -/
def badIntervalEnv : StartEnv :=
  { intervalValid := false, socketExists := true, storeOpenOk := true, listenOk := true,
    pidWriteOk := true, lockWriteOk := true }

/-- Counterexample to claim C7 as stated: with the socket path existing but
an invalid interval string, StartDaemon fails with the interval-parse
error, not with the "already running" error (it still performs no
filesystem effect). -/
theorem C7_invalid_interval_cex :
    badIntervalEnv.socketExists = true
    ∧ startDaemon badIntervalEnv ".tandas" = (.error "invalid interval", [])
    ∧ ¬(("invalid interval" : String) =
        "daemon already running (socket exists: " ++ ".tandas" ++ "/td.sock)") := by
  refine ⟨rfl, rfl, by decide⟩

/-- An environment with a valid interval and an existing socket. -/
def socketBusyEnv : StartEnv :=
  { intervalValid := true, socketExists := true, storeOpenOk := true, listenOk := true,
    pidWriteOk := true, lockWriteOk := true }

theorem C7_singleton_refusal_witness :
    socketBusyEnv.intervalValid = true
    ∧ socketBusyEnv.socketExists = true
    ∧ startDaemon socketBusyEnv ".tandas" =
        (.error ("daemon already running (socket exists: " ++ ".tandas" ++ "/td.sock)"), []) :=
  ⟨rfl, rfl, C7_singleton_refusal socketBusyEnv ".tandas" rfl rfl⟩

/-- The daemon state Shutdown manipulates: whether the done channel is
already closed and which watchers were successfully created. -/
structure DaemonState where
  doneClosed : Bool
  hasWatcher : Bool
  hasTraceWatcher : Bool
deriving DecidableEq

/-- The steps of Shutdown, in the order the code performs them. -/
inductive ShutEffect where
  | signalDone
  | stopWatcher
  | stopTraceWatcher
  | closeListener
  | closeStore
  | removeSocket
  | removePidFile
  | removeLockFile
deriving DecidableEq

/-- Go Shutdown: close(d.done) — which panics when the channel is already
closed — then stop each existing watcher, close the listener, close the
store, and delete the socket, PID and lock markers, in that order. The
panic is modelled as the error value. -/
def shutdown (d : DaemonState) : Except String (DaemonState × List ShutEffect) :=
  if d.doneClosed = true then .error "close of closed channel"
  else
    .ok ({ d with doneClosed := true },
      [ShutEffect.signalDone]
        ++ (if d.hasWatcher = true then [ShutEffect.stopWatcher] else [])
        ++ (if d.hasTraceWatcher = true then [ShutEffect.stopTraceWatcher] else [])
        ++ [ShutEffect.closeListener, ShutEffect.closeStore, ShutEffect.removeSocket,
          ShutEffect.removePidFile, ShutEffect.removeLockFile])

/-- Claim C9, evaluated at the failing input: a first Shutdown performs the
claimed strictly ordered sequence — signal loops, stop both watchers, close
the listener, close the store, delete socket, PID and lock markers — but a
second trigger of Shutdown on the resulting state panics (close of an
already-closed channel) instead of being idempotent, contradicting the
claim that double-triggering must not panic. -/
theorem C9_shutdown_double_panics :
    shutdown { doneClosed := false, hasWatcher := true, hasTraceWatcher := true } =
      .ok ({ doneClosed := true, hasWatcher := true, hasTraceWatcher := true },
        [ShutEffect.signalDone, ShutEffect.stopWatcher, ShutEffect.stopTraceWatcher,
          ShutEffect.closeListener, ShutEffect.closeStore, ShutEffect.removeSocket,
          ShutEffect.removePidFile, ShutEffect.removeLockFile])
    ∧ shutdown { doneClosed := true, hasWatcher := true, hasTraceWatcher := true } =
        .error "close of closed channel" := by
  refine ⟨rfl, rfl⟩

/-! ## File watcher (Go package watch, file part_001)

The event loop of Watcher.Start is modelled as a deterministic discrete-
time semantics: the input is a time-ordered trace of loop inputs (a
filesystem event carrying the base name and whether its op is
create-or-write, or the done-channel closing caused by Stop). The single
debounce timer is modelled by its pending deadline; a timer armed at time
t fires at t + debounce unless it is stopped or re-armed first, and a
pending deadline that is at or before the next input's time fires before
that input is processed (loop iterations are instantaneous relative to the
debounce window). The returned list is the times at which the user
callback fires. -/

/-- One input of the watcher event loop. -/
inductive WatchInput where
  | fsEvent (name : String) (isWriteOrCreate : Bool)
  | stop
deriving DecidableEq

/-- The event filter of Watcher.Start: the base name must equal the watched
file name and the op must include Write or Create. -/
def qualifies (fileName : String) : WatchInput → Bool
  | .fsEvent n isWC => n == fileName && isWC
  | .stop => false

/-- The Watcher.Start loop: a pending timer whose deadline has been reached
fires before the next input is handled; on a qualifying event the pending
timer is stopped and re-armed to fire debounce later; a non-qualifying
event changes nothing; the done channel (Stop) stops any pending timer and
ends the loop; when the trace ends with a timer still pending, that timer
fires. -/
def watcherRun (fileName : String) (debounce : ℕ) :
    Option ℕ → List (ℕ × WatchInput) → List ℕ
  | some dl, [] => [dl]
  | none, [] => []
  | some dl, (t, .stop) :: _ => if dl ≤ t then [dl] else []
  | none, (_, .stop) :: _ => []
  | some dl, (t, .fsEvent n isWC) :: rest =>
    if dl ≤ t then
      if n == fileName && isWC then dl :: watcherRun fileName debounce (some (t + debounce)) rest
      else dl :: watcherRun fileName debounce none rest
    else
      if n == fileName && isWC then watcherRun fileName debounce (some (t + debounce)) rest
      else watcherRun fileName debounce (some dl) rest
  | none, (t, .fsEvent n isWC) :: rest =>
    if n == fileName && isWC then watcherRun fileName debounce (some (t + debounce)) rest
    else watcherRun fileName debounce none rest

/-- The trace of a burst of qualifying events at the given times. -/
def burstTrace (fileName : String) (times : List ℕ) : List (ℕ × WatchInput) :=
  times.map fun u => (u, WatchInput.fsEvent fileName true)

lemma watcher_burst_aux (fileName : String) (debounce : ℕ) :
    ∀ (ts : List ℕ) (t : ℕ),
      List.Chain (fun a b => a < b ∧ b < a + debounce) t ts →
      watcherRun fileName debounce (some (t + debounce)) (burstTrace fileName ts) =
        [ts.getLastD t + debounce] := by
  intro ts
  induction ts with
  | nil => intro t _; rfl
  | cons u ts ih =>
    intro t hchain
    rw [List.chain_cons] at hchain
    obtain ⟨⟨_, hub⟩, hchain2⟩ := hchain
    show watcherRun fileName debounce (some (t + debounce))
      ((u, WatchInput.fsEvent fileName true) :: burstTrace fileName ts) = _
    simp only [watcherRun]
    rw [if_neg (show ¬(t + debounce ≤ u) by omega)]
    rw [if_pos (show (fileName == fileName && true) = true by simp)]
    rw [ih u hchain2]
    rw [List.getLastD_cons]

lemma watcher_burst_stop_aux (fileName : String) (debounce : ℕ) :
    ∀ (ts : List ℕ) (t s : ℕ),
      List.Chain (fun a b => a < b ∧ b < a + debounce) t ts →
      s < ts.getLastD t + debounce →
      watcherRun fileName debounce (some (t + debounce))
          (burstTrace fileName ts ++ [(s, WatchInput.stop)]) = [] := by
  intro ts
  induction ts with
  | nil =>
    intro t s _ hs
    have hs2 : s < t + debounce := hs
    show watcherRun fileName debounce (some (t + debounce)) [(s, WatchInput.stop)] = []
    simp only [watcherRun]
    rw [if_neg (show ¬(t + debounce ≤ s) by omega)]
  | cons u ts ih =>
    intro t s hchain hs
    rw [List.chain_cons] at hchain
    obtain ⟨⟨_, hub⟩, hchain2⟩ := hchain
    rw [List.getLastD_cons] at hs
    show watcherRun fileName debounce (some (t + debounce))
      ((u, WatchInput.fsEvent fileName true) :: (burstTrace fileName ts ++
        [(s, WatchInput.stop)])) = _
    simp only [watcherRun]
    rw [if_neg (show ¬(t + debounce ≤ u) by omega)]
    rw [if_pos (show (fileName == fileName && true) = true by simp)]
    exact ih u s hchain2 hs

lemma watcher_no_qualifying (fileName : String) (debounce : ℕ) :
    ∀ trace : List (ℕ × WatchInput),
      (∀ p ∈ trace, qualifies fileName p.2 = false) →
      watcherRun fileName debounce none trace = [] := by
  intro trace
  induction trace with
  | nil => intro _; rfl
  | cons p rest ih =>
    intro hnq
    obtain ⟨t, inp⟩ := p
    cases inp with
    | stop => rfl
    | fsEvent n isWC =>
      have hq : (n == fileName && isWC) = false :=
        hnq (t, .fsEvent n isWC) (List.mem_cons_self _ _)
      show watcherRun fileName debounce none ((t, WatchInput.fsEvent n isWC) :: rest) = []
      simp only [watcherRun]
      rw [if_neg (show ¬((n == fileName && isWC) = true) by rw [hq]; decide)]
      exact ih fun q hq2 => hnq q (List.mem_cons_of_mem _ hq2)

/-- Claim C10: a burst of N ≥ 1 qualifying events (first at time t0, then
at times ts, each gap positive and shorter than the debounce window) makes
the callback fire exactly once, at the time of the last event plus the
debounce window; the same burst followed by a Stop that arrives after the
last event but before that deadline fires the callback not at all (Stop
cancels the pending timer); and a trace with no qualifying events (wrong
base name, wrong op kind, or stop) never fires the callback. -/
theorem C10_debounce_coalescing (fileName : String) (debounce : ℕ) (t0 : ℕ) (ts : List ℕ)
    (s : ℕ) (trace2 : List (ℕ × WatchInput))
    (hchain : List.Chain (fun a b => a < b ∧ b < a + debounce) t0 ts)
    (_hs1 : ts.getLastD t0 < s) (hs2 : s < ts.getLastD t0 + debounce)
    (hnq : ∀ p ∈ trace2, qualifies fileName p.2 = false) :
    watcherRun fileName debounce none (burstTrace fileName (t0 :: ts)) =
      [ts.getLastD t0 + debounce]
    ∧ watcherRun fileName debounce none
        (burstTrace fileName (t0 :: ts) ++ [(s, WatchInput.stop)]) = []
    ∧ watcherRun fileName debounce none trace2 = [] := by
  refine ⟨?_, ?_, watcher_no_qualifying fileName debounce trace2 hnq⟩
  · show watcherRun fileName debounce none
      ((t0, WatchInput.fsEvent fileName true) :: burstTrace fileName ts) = _
    simp only [watcherRun]
    rw [if_pos (show (fileName == fileName && true) = true by simp)]
    exact watcher_burst_aux fileName debounce ts t0 hchain
  · show watcherRun fileName debounce none
      ((t0, WatchInput.fsEvent fileName true) :: (burstTrace fileName ts ++
        [(s, WatchInput.stop)])) = _
    simp only [watcherRun]
    rw [if_pos (show (fileName == fileName && true) = true by simp)]
    exact watcher_burst_stop_aux fileName debounce ts t0 s hchain hs2

theorem C10_debounce_coalescing_witness :
    List.Chain (fun a b => a < b ∧ b < a + 500) 0 [100, 200]
    ∧ ([100, 200].getLastD 0 < 650 ∧ 650 < [100, 200].getLastD 0 + 500)
    ∧ (∀ p ∈ ([(0, WatchInput.fsEvent "other.txt" true),
          (10, WatchInput.fsEvent "issues.jsonl" false)] : List (ℕ × WatchInput)),
        qualifies "issues.jsonl" p.2 = false)
    ∧ (watcherRun "issues.jsonl" 500 none (burstTrace "issues.jsonl" (0 :: [100, 200])) =
          [[100, 200].getLastD 0 + 500]
        ∧ watcherRun "issues.jsonl" 500 none
            (burstTrace "issues.jsonl" (0 :: [100, 200]) ++ [(650, WatchInput.stop)]) = []
        ∧ watcherRun "issues.jsonl" 500 none
            [(0, WatchInput.fsEvent "other.txt" true),
              (10, WatchInput.fsEvent "issues.jsonl" false)] = []) :=
  ⟨List.Chain.cons (by omega) (List.Chain.cons (by omega) List.Chain.nil),
    ⟨by decide, by decide⟩, by decide,
    C10_debounce_coalescing "issues.jsonl" 500 0 [100, 200] 650
      [(0, WatchInput.fsEvent "other.txt" true), (10, WatchInput.fsEvent "issues.jsonl" false)]
      (List.Chain.cons (by omega) (List.Chain.cons (by omega) List.Chain.nil))
      (by decide) (by decide) (by decide)⟩

end Tandas
